import Mathlib

/-!
Verification of the Deutschlandkarte Gemeinden/Ortsteile repository.

The repository consists of three source files:
* a data-producer script (`scripts/fetch_vg250_ew.js`) that fetches municipality
  and county features and writes an enriched GeoJSON feature collection;
* a data-splitter script that partitions a feature collection into per-state
  files keyed by the first two characters of each feature's identifier;
* two variants of a browser presentation application (a Leaflet variant and a
  MapLibre variant) that load the static files, merge them, assign population
  ranks, filter by a search query, and render colored map layers.

This file shallowly embeds the data model and the pure data transformations of
those programs and proves properties about them.  JavaScript numbers are
modelled as rationals (`ℚ`), `null`/`undefined` as `Option.none`, and the
stable `Array.prototype.sort` (stability is mandated by ES2019) as
`List.insertionSort`, which is a stable sort: a stable sort of a list by a
total preorder on keys is uniquely determined, so any stable sort is a
faithful model.
-/

namespace Deutschlandkarte

/-- The two feature kinds appearing in the data model. -/
inductive Kind where
  | gemeinde
  | ortsteil
deriving DecidableEq, Repr

/-- Feature properties, after the `FProps`/`FeatureProps` TypeScript types of the
presentation application and the object literal built by the producer script.
`Option` models JavaScript `null`/`undefined`; numeric fields are rationals. -/
structure FProps where
  id : Option String := none
  name : Option String := none
  county : Option String := none
  parent : Option String := none
  ags : Option String := none
  pop : Option ℚ := none
  area_km2 : Option ℚ := none
  density : Option ℚ := none
  kind : Kind
  rank : Option Nat := none
deriving DecidableEq, Repr

/-- A GeoJSON feature; the geometry is passed through unmodified by every
operation in the repository, so it is modelled as an opaque tag. -/
structure GFeat where
  properties : FProps
  geometry : Nat := 0
deriving DecidableEq, Repr

/-- A feature collection: an ordered sequence of features. -/
structure FC where
  features : List GFeat
deriving DecidableEq, Repr

/-! ### Color mapping (Leaflet variant, `colorForPop`) -/

/-- The ten fixed data colors, from the `COLORS` constant of the Leaflet
variant. -/
def COLORS : List String :=
  ["#7f0000", "#cc0000", "#ff66a3", "#cc5500", "#ff9900",
   "#ffff00", "#add8e6", "#0000ff", "#90ee90", "#008000"]

/-- Direct translation of `colorForPop` from the Leaflet variant:
`const p = pop ?? -1; if (p < 0) return "#cccccc"; if (p <= 5000) ...`. -/
def colorForPop (pop : Option ℚ) : String :=
  let p := pop.getD (-1)
  if p < 0 then "#cccccc"
  else if p ≤ 5000 then "#7f0000"
  else if p ≤ 10000 then "#cc0000"
  else if p ≤ 20000 then "#ff66a3"
  else if p ≤ 30000 then "#cc5500"
  else if p ≤ 40000 then "#ff9900"
  else if p ≤ 50000 then "#ffff00"
  else if p ≤ 60000 then "#add8e6"
  else if p ≤ 80000 then "#0000ff"
  else if p ≤ 100000 then "#90ee90"
  else "#008000"

/-- The spec's ascending breakpoint table, each breakpoint paired with the color
of the band whose inclusive upper bound it is. -/
def popBreaks : List (ℚ × String) :=
  [(5000, "#7f0000"), (10000, "#cc0000"), (20000, "#ff66a3"),
   (30000, "#cc5500"), (40000, "#ff9900"), (50000, "#ffff00"),
   (60000, "#add8e6"), (80000, "#0000ff"), (100000, "#90ee90")]

/-- Modelled from the spec's words (for comparison with `colorForPop`): select a
color by thresholding against the ascending breakpoint table with boundaries
inclusive on the upper bound — the first breakpoint that is `≥` the value
decides the band, values above all breakpoints take the last color, and an
unknown or negative value takes the neutral gray. -/
def specColorForPop (pop : Option ℚ) : String :=
  match pop with
  | none => "#cccccc"
  | some v =>
    if v < 0 then "#cccccc"
    else
      match popBreaks.find? (fun b => v ≤ b.1) with
      | some b => b.2
      | none => "#008000"

/-- The stop list of the MapLibre variant's `colorExpr` step expression: the
base output color followed by (threshold, output) pairs. -/
def colorExprBase : String := "#7f0000"

/-- Threshold/color stops of the MapLibre variant's `colorExpr`. -/
def colorExprStops : List (ℚ × String) :=
  [(5000, "#cc0000"), (10000, "#ff66a3"), (20000, "#cc5500"),
   (30000, "#ff9900"), (40000, "#ffff00"), (50000, "#add8e6"),
   (60000, "#0000ff"), (80000, "#90ee90"), (100000, "#008000")]

/-- Evaluation of a MapLibre `step` expression on a numeric input, per the
MapLibre style-specification: the result is the base output when the input is
below the first stop, and otherwise the output of the last stop whose
threshold is `≤` the input — each threshold is an inclusive lower bound of
the band it starts.  (An external-library contract, embedded like the stable
`Array.prototype.sort`.) -/
def stepColor (base : String) (stops : List (ℚ × String)) (v : ℚ) : String :=
  stops.foldl (fun acc s => if s.1 ≤ v then s.2 else acc) base

/-- Full interval characterization of the MapLibre color mapping: each
threshold is an inclusive lower bound, so population exactly 5000 falls in
the second band, and everything below 5000 — negative values included — takes
the first data color. -/
lemma stepColor_band (v : ℚ) :
    (v < 5000 → stepColor colorExprBase colorExprStops v = "#7f0000") ∧
    (5000 ≤ v → v < 10000 → stepColor colorExprBase colorExprStops v = "#cc0000") ∧
    (10000 ≤ v → v < 20000 → stepColor colorExprBase colorExprStops v = "#ff66a3") ∧
    (20000 ≤ v → v < 30000 → stepColor colorExprBase colorExprStops v = "#cc5500") ∧
    (30000 ≤ v → v < 40000 → stepColor colorExprBase colorExprStops v = "#ff9900") ∧
    (40000 ≤ v → v < 50000 → stepColor colorExprBase colorExprStops v = "#ffff00") ∧
    (50000 ≤ v → v < 60000 → stepColor colorExprBase colorExprStops v = "#add8e6") ∧
    (60000 ≤ v → v < 80000 → stepColor colorExprBase colorExprStops v = "#0000ff") ∧
    (80000 ≤ v → v < 100000 → stepColor colorExprBase colorExprStops v = "#90ee90") ∧
    (100000 ≤ v → stepColor colorExprBase colorExprStops v = "#008000") := by
  refine ⟨?_, ?_, ?_, ?_, ?_, ?_, ?_, ?_, ?_, ?_⟩
  · intro h
    simp [stepColor, colorExprBase, colorExprStops, List.foldl,
      not_le.mpr h, not_le.mpr (show v < 10000 by linarith),
      not_le.mpr (show v < 20000 by linarith),
      not_le.mpr (show v < 30000 by linarith),
      not_le.mpr (show v < 40000 by linarith),
      not_le.mpr (show v < 50000 by linarith),
      not_le.mpr (show v < 60000 by linarith),
      not_le.mpr (show v < 80000 by linarith),
      not_le.mpr (show v < 100000 by linarith)]
  · intro h h'
    simp [stepColor, colorExprBase, colorExprStops, List.foldl, h,
      not_le.mpr h', not_le.mpr (show v < 20000 by linarith),
      not_le.mpr (show v < 30000 by linarith),
      not_le.mpr (show v < 40000 by linarith),
      not_le.mpr (show v < 50000 by linarith),
      not_le.mpr (show v < 60000 by linarith),
      not_le.mpr (show v < 80000 by linarith),
      not_le.mpr (show v < 100000 by linarith)]
  · intro h h'
    simp [stepColor, colorExprBase, colorExprStops, List.foldl, h,
      not_le.mpr h', not_le.mpr (show v < 30000 by linarith),
      not_le.mpr (show v < 40000 by linarith),
      not_le.mpr (show v < 50000 by linarith),
      not_le.mpr (show v < 60000 by linarith),
      not_le.mpr (show v < 80000 by linarith),
      not_le.mpr (show v < 100000 by linarith)]
  · intro h h'
    simp [stepColor, colorExprBase, colorExprStops, List.foldl, h,
      not_le.mpr h', not_le.mpr (show v < 40000 by linarith),
      not_le.mpr (show v < 50000 by linarith),
      not_le.mpr (show v < 60000 by linarith),
      not_le.mpr (show v < 80000 by linarith),
      not_le.mpr (show v < 100000 by linarith)]
  · intro h h'
    simp [stepColor, colorExprBase, colorExprStops, List.foldl, h,
      not_le.mpr h', not_le.mpr (show v < 50000 by linarith),
      not_le.mpr (show v < 60000 by linarith),
      not_le.mpr (show v < 80000 by linarith),
      not_le.mpr (show v < 100000 by linarith)]
  · intro h h'
    simp [stepColor, colorExprBase, colorExprStops, List.foldl, h,
      not_le.mpr h', not_le.mpr (show v < 60000 by linarith),
      not_le.mpr (show v < 80000 by linarith),
      not_le.mpr (show v < 100000 by linarith)]
  · intro h h'
    simp [stepColor, colorExprBase, colorExprStops, List.foldl, h,
      not_le.mpr h', not_le.mpr (show v < 80000 by linarith),
      not_le.mpr (show v < 100000 by linarith)]
  · intro h h'
    simp [stepColor, colorExprBase, colorExprStops, List.foldl, h,
      not_le.mpr h', not_le.mpr (show v < 100000 by linarith)]
  · intro h h'
    simp [stepColor, colorExprBase, colorExprStops, List.foldl, h, not_le.mpr h']
  · intro h
    simp [stepColor, colorExprBase, colorExprStops, List.foldl, h]

/-- The step expression always yields one of the ten data colors — the gray
`"#cccccc"` can never occur in the MapLibre variant. -/
lemma stepColor_mem (v : ℚ) : stepColor colorExprBase colorExprStops v ∈ COLORS := by
  simp only [stepColor, colorExprBase, colorExprStops, List.foldl]
  split_ifs <;> decide

/-- The Leaflet color mapping coincides, at every input, with the mapping
described by the spec's words. -/
lemma colorForPop_eq_spec (pop : Option ℚ) : colorForPop pop = specColorForPop pop := by
  cases pop with
  | none => rfl
  | some v =>
    rcases lt_or_le v 0 with h0 | h0
    · simp [colorForPop, specColorForPop, h0]
    · have h0' : ¬ v < 0 := not_lt.mpr h0
      by_cases h1 : v ≤ 5000
      · simp [colorForPop, specColorForPop, popBreaks, List.find?, h0', h1]
      by_cases h2 : v ≤ 10000
      · simp [colorForPop, specColorForPop, popBreaks, List.find?, h0', h1, h2]
      by_cases h3 : v ≤ 20000
      · simp [colorForPop, specColorForPop, popBreaks, List.find?, h0', h1, h2, h3]
      by_cases h4 : v ≤ 30000
      · simp [colorForPop, specColorForPop, popBreaks, List.find?, h0', h1, h2, h3, h4]
      by_cases h5 : v ≤ 40000
      · simp [colorForPop, specColorForPop, popBreaks, List.find?, h0', h1, h2, h3, h4,
          h5]
      by_cases h6 : v ≤ 50000
      · simp [colorForPop, specColorForPop, popBreaks, List.find?, h0', h1, h2, h3, h4,
          h5, h6]
      by_cases h7 : v ≤ 60000
      · simp [colorForPop, specColorForPop, popBreaks, List.find?, h0', h1, h2, h3, h4,
          h5, h6, h7]
      by_cases h8 : v ≤ 80000
      · simp [colorForPop, specColorForPop, popBreaks, List.find?, h0', h1, h2, h3, h4,
          h5, h6, h7, h8]
      by_cases h9 : v ≤ 100000
      · simp [colorForPop, specColorForPop, popBreaks, List.find?, h0', h1, h2, h3, h4,
          h5, h6, h7, h8, h9]
      · simp [colorForPop, specColorForPop, popBreaks, List.find?, h0', h1, h2, h3, h4,
          h5, h6, h7, h8, h9]

/-- Every non-negative population is mapped into the ten data colors. -/
lemma colorForPop_mem_COLORS {v : ℚ} (hv : 0 ≤ v) : colorForPop (some v) ∈ COLORS := by
  simp only [colorForPop, Option.getD_some]
  rw [if_neg (not_lt.mpr hv)]
  split_ifs <;> decide

/-- Counterexample for C2 as frozen: in the MapLibre variant the color mapping
is the `step` expression over the same threshold table, whose boundaries are
inclusive on the LOWER bound — population exactly 5000 selects the second
band `"#cc0000"`, not the first band `"#7f0000"` — and a negative value
selects the first data color rather than a neutral gray; indeed `"#cccccc"`
is not among the expression's outputs at all. -/
theorem c2_color_buckets_counterexample :
    stepColor colorExprBase colorExprStops 5000 = "#cc0000" ∧
    "#cc0000" ≠ "#7f0000" ∧
    stepColor colorExprBase colorExprStops (-5) = "#7f0000" ∧
    "#7f0000" ∈ COLORS ∧
    "#cccccc" ∉ colorExprBase :: colorExprStops.map Prod.snd := by
  refine ⟨by decide, by decide, by decide, by decide, by decide⟩

/-- Claim C2, corrected.  Both variants threshold against the same ascending
breakpoint table 5000,…,100000 with the same ten colors, but they disagree at
the boundaries and on the out-of-range color.  Leaflet variant (`colorForPop`),
as the claim states: boundaries inclusive on the upper bound (5000 maps to the
first band, 5001 to the second), unknown and negative values map to the
neutral gray `"#cccccc"`, which is distinct from all ten data colors, and
every non-negative value maps into the ten colors.  MapLibre variant
(`colorExpr`, a `step` expression): boundaries inclusive on the lower bound —
population exactly 5000 selects the second band (full interval
characterization in the twelfth conjunct) — a negative value selects the
first data color, and every value selects one of the ten data colors, so the
gray never occurs there. -/
theorem c2_color_buckets :
    (∀ pop : Option ℚ, colorForPop pop = specColorForPop pop) ∧
    colorForPop (some 5000) = "#7f0000" ∧ COLORS[0]? = some "#7f0000" ∧
    colorForPop (some 5001) = "#cc0000" ∧ COLORS[1]? = some "#cc0000" ∧
    colorForPop none = "#cccccc" ∧
    (∀ v : ℚ, v < 0 → colorForPop (some v) = "#cccccc") ∧
    "#cccccc" ∉ COLORS ∧
    (∀ v : ℚ, 0 ≤ v → colorForPop (some v) ∈ COLORS) ∧
    colorExprBase :: colorExprStops.map Prod.snd = COLORS ∧
    colorExprStops.map Prod.fst = popBreaks.map Prod.fst ∧
    (∀ v : ℚ,
      (v < 5000 → stepColor colorExprBase colorExprStops v = "#7f0000") ∧
      (5000 ≤ v → v < 10000 → stepColor colorExprBase colorExprStops v = "#cc0000") ∧
      (10000 ≤ v → v < 20000 → stepColor colorExprBase colorExprStops v = "#ff66a3") ∧
      (20000 ≤ v → v < 30000 → stepColor colorExprBase colorExprStops v = "#cc5500") ∧
      (30000 ≤ v → v < 40000 → stepColor colorExprBase colorExprStops v = "#ff9900") ∧
      (40000 ≤ v → v < 50000 → stepColor colorExprBase colorExprStops v = "#ffff00") ∧
      (50000 ≤ v → v < 60000 → stepColor colorExprBase colorExprStops v = "#add8e6") ∧
      (60000 ≤ v → v < 80000 → stepColor colorExprBase colorExprStops v = "#0000ff") ∧
      (80000 ≤ v → v < 100000 → stepColor colorExprBase colorExprStops v = "#90ee90") ∧
      (100000 ≤ v → stepColor colorExprBase colorExprStops v = "#008000")) ∧
    stepColor colorExprBase colorExprStops 5000 = "#cc0000" ∧
    (∀ v : ℚ, v < 0 → stepColor colorExprBase colorExprStops v = "#7f0000") ∧
    (∀ v : ℚ, stepColor colorExprBase colorExprStops v ∈ COLORS) := by
  refine ⟨colorForPop_eq_spec, ?_, by decide, ?_, by decide, rfl, ?_, by decide,
    fun v hv => colorForPop_mem_COLORS hv, by decide, by decide, stepColor_band,
    by decide, ?_, stepColor_mem⟩
  · norm_num [colorForPop]
  · norm_num [colorForPop]
  · intro v hv
    simp [colorForPop, hv]
  · intro v hv
    exact (stepColor_band v).1 (by linarith)

/-- Witness for C2 at concrete inputs, discharging the sign hypotheses of both
variants' conjuncts: the Leaflet mapping sends `-3` to the gray and `70000`
into the ten colors, while the MapLibre step expression sends `-3` to the
first data color. -/
theorem c2_color_buckets_witness :
    colorForPop (some (-3)) = "#cccccc" ∧ colorForPop (some 70000) ∈ COLORS ∧
    stepColor colorExprBase colorExprStops (-3) = "#7f0000" := by
  obtain ⟨-, -, -, -, -, -, h7, -, h9, -, -, -, -, h14, -⟩ := c2_color_buckets
  exact ⟨h7 (-3) (by norm_num), h9 70000 (by norm_num), h14 (-3) (by norm_num)⟩

/-! ### Presentation pipeline: merge, density recomputation, sort, rank -/

/-- Density recomputation from the Leaflet variant's `combined` memo:
`if ((p.density === null || p.density === undefined) && Number.isFinite(p.pop)
&& Number.isFinite(p.area_km2) && p.area_km2 > 0) p.density = p.pop/p.area_km2`.
In the source the assignment mutates the stored feature in place; here the
update is returned and `combinedEffect` threads it back to the stores. -/
def recomputeDensity (f : GFeat) : GFeat :=
  match f.properties.density, f.properties.pop, f.properties.area_km2 with
  | none, some p, some a =>
    if 0 < a then
      { f with properties := { f.properties with density := some (p / a) } }
    else f
  | _, _, _ => f

/-- The sort key used by both variants' comparators: `pop ?? -1`. -/
def popKey (f : GFeat) : ℚ := f.properties.pop.getD (-1)

/-- The Leaflet comparator `(a, b) => (b.pop ?? -1) - (a.pop ?? -1)`: `a` may
precede `b` exactly when the comparator value is `≤ 0`, i.e. descending
`popKey`. -/
def popDesc (a b : GFeat) : Prop := popKey b ≤ popKey a

instance : DecidableRel popDesc :=
  fun a b => inferInstanceAs (Decidable (popKey b ≤ popKey a))

instance : IsTotal GFeat popDesc := ⟨fun a b => le_total (popKey b) (popKey a)⟩

instance : IsTrans GFeat popDesc := ⟨fun _ _ _ h1 h2 => le_trans h2 h1⟩

/-- The MapLibre comparator: `-1` (unknown population) sorts after everything,
otherwise ascending `pa - pb`; again `a` may precede `b` exactly when the
comparator value is `≤ 0`. -/
def mlAsc (a b : GFeat) : Prop :=
  if popKey a = -1 then popKey b = -1 else (popKey b = -1 ∨ popKey a ≤ popKey b)

instance : DecidableRel mlAsc := fun a b => by unfold mlAsc; infer_instance

instance : IsTotal GFeat mlAsc :=
  ⟨fun a b => by
    unfold mlAsc
    by_cases ha : popKey a = -1
    · by_cases hb : popKey b = -1
      · left; rw [if_pos ha]; exact hb
      · right; rw [if_neg hb]; left; exact ha
    · by_cases hb : popKey b = -1
      · left; rw [if_neg ha]; left; exact hb
      · rcases le_total (popKey a) (popKey b) with h | h
        · left; rw [if_neg ha]; right; exact h
        · right; rw [if_neg hb]; right; exact h⟩

instance : IsTrans GFeat mlAsc :=
  ⟨fun a b c hab hbc => by
    unfold mlAsc at *
    by_cases ha : popKey a = -1
    · rw [if_pos ha] at hab
      rw [if_pos hab] at hbc
      rw [if_pos ha]
      exact hbc
    · rw [if_neg ha] at hab ⊢
      by_cases hb : popKey b = -1
      · rw [if_pos hb] at hbc
        left; exact hbc
      · rw [if_neg hb] at hbc
        rcases hab with h | h
        · exact absurd h hb
        · rcases hbc with h' | h'
          · left; exact h'
          · right; exact le_trans h h'⟩

/-- Rank assignment loop shared by both variants: walk the sorted list with a
counter starting at 1, give the current counter value (then bump it) to each
feature satisfying `pred`, `undefined` to the others.  The Leaflet variant uses
`Number.isFinite(pop)`, the MapLibre variant uses truthiness of `pop`. -/
def assignRanksBy (pred : GFeat → Bool) : Nat → List GFeat → List GFeat
  | _, [] => []
  | r, f :: fs =>
    if pred f then
      { f with properties := { f.properties with rank := some r } } ::
        assignRanksBy pred (r + 1) fs
    else
      { f with properties := { f.properties with rank := none } } ::
        assignRanksBy pred r fs

/-- `Number.isFinite(pop)`: in the rational model, any present value. -/
def finitePop (f : GFeat) : Bool := f.properties.pop.isSome

/-- JavaScript truthiness of `pop`: present and nonzero. -/
def truthyPop (f : GFeat) : Bool :=
  match f.properties.pop with
  | some q => decide (q ≠ 0)
  | none => false

/-- `if (gemeinden) arr.push(...gemeinden.features)`. -/
def featsOf : Option FC → List GFeat
  | some fc => fc.features
  | none => []

/-- The Leaflet variant's `combined` memo together with its effect on the
stored collections.  The density loop runs over `arr`, whose elements alias
the stored features, so after the memo runs the stores are mapped by
`recomputeDensity`; the sort then operates on a fresh copy (`arr.slice()`) and
the ranking builds fresh feature objects.  Returns
(ranked sequence, gemeinden store after, ortsteile store after). -/
def combinedEffect (g o : List GFeat) :
    List GFeat × List GFeat × List GFeat :=
  (assignRanksBy finitePop 1
      (List.insertionSort popDesc (g.map recomputeDensity ++ o.map recomputeDensity)),
   g.map recomputeDensity, o.map recomputeDensity)

/-- The value of the Leaflet variant's `combined` memo. -/
def leafletCombined (g o : Option FC) : List GFeat :=
  (combinedEffect (featsOf g) (featsOf o)).1

/-- The MapLibre variant's `combined` memo: concatenate, copy each feature with
`pop: f.properties.pop ?? null` (the copy is the identity in this model, since
`null` and `undefined` are both `none`), stable-sort ascending with unknowns
last, and rank the features with truthy population. -/
def mapLibreCombined (g o : Option FC) : List GFeat :=
  assignRanksBy truthyPop 1 (List.insertionSort mlAsc (featsOf g ++ featsOf o))

/-- Erase the rank field; used to compare pipeline outputs with their inputs,
because ranking rebuilds every feature with a fresh `rank`. -/
def stripRank (f : GFeat) : GFeat :=
  { f with properties := { f.properties with rank := none } }

lemma stripRank_pop (f : GFeat) : (stripRank f).properties.pop = f.properties.pop := rfl

lemma stripRank_kind (f : GFeat) : (stripRank f).properties.kind = f.properties.kind := rfl

lemma popKey_stripRank (f : GFeat) : popKey (stripRank f) = popKey f := rfl

lemma recomputeDensity_pop (f : GFeat) :
    (recomputeDensity f).properties.pop = f.properties.pop := by
  unfold recomputeDensity
  split <;> try rfl
  split <;> rfl

lemma recomputeDensity_kind (f : GFeat) :
    (recomputeDensity f).properties.kind = f.properties.kind := by
  unfold recomputeDensity
  split <;> try rfl
  split <;> rfl

/-- Rank assignment only rewrites the `rank` field. -/
lemma assignRanksBy_map_stripRank (pred : GFeat → Bool) :
    ∀ (n : Nat) (l : List GFeat),
      (assignRanksBy pred n l).map stripRank = l.map stripRank
  | _, [] => rfl
  | n, f :: fs => by
    unfold assignRanksBy
    split <;>
      simp [stripRank, assignRanksBy_map_stripRank pred _ fs]

/-- Every output of rank assignment comes from an input feature, equal up to
the rank field. -/
lemma assignRanksBy_mem (pred : GFeat → Bool) (n : Nat) (l : List GFeat)
    {f' : GFeat} (hf' : f' ∈ assignRanksBy pred n l) :
    ∃ f ∈ l, stripRank f' = stripRank f := by
  have h1 : stripRank f' ∈ (assignRanksBy pred n l).map stripRank :=
    List.mem_map_of_mem stripRank hf'
  rw [assignRanksBy_map_stripRank] at h1
  obtain ⟨f, hf, hst⟩ := List.mem_map.mp h1
  exact ⟨f, hf, hst.symm⟩

/-- A feature in the output of rank assignment has a rank exactly when it
satisfies the predicate, provided the predicate only looks at `pop`. -/
lemma assignRanksBy_rank_isSome (pred : GFeat → Bool)
    (hpred : ∀ a b : GFeat, a.properties.pop = b.properties.pop → pred a = pred b) :
    ∀ (n : Nat) (l : List GFeat), ∀ f' ∈ assignRanksBy pred n l,
      f'.properties.rank.isSome = pred f'
  | _, [], _, hf' => by cases hf'
  | n, f :: fs, f', hf' => by
    unfold assignRanksBy at hf'
    by_cases hp : pred f
    · rw [if_pos hp] at hf'
      rcases List.mem_cons.mp hf' with rfl | hmem
      · have h := hpred { f with properties := { f.properties with rank := some n } } f rfl
        simp [h, hp]
      · exact assignRanksBy_rank_isSome pred hpred (n + 1) fs f' hmem
    · rw [if_neg hp] at hf'
      rcases List.mem_cons.mp hf' with rfl | hmem
      · have h := hpred { f with properties := { f.properties with rank := none } } f rfl
        simp [h, hp]
      · exact assignRanksBy_rank_isSome pred hpred n fs f' hmem

/-- The ranks produced, read off in output order, are exactly the dense range
starting at the counter, one per feature satisfying the predicate. -/
lemma assignRanksBy_filterMap_rank (pred : GFeat → Bool) :
    ∀ (n : Nat) (l : List GFeat),
      (assignRanksBy pred n l).filterMap (fun f => f.properties.rank) =
        List.range' n (l.countP pred)
  | _, [] => rfl
  | n, f :: fs => by
    unfold assignRanksBy
    by_cases hp : pred f
    · simp [hp, List.countP_cons, List.range'_succ,
        assignRanksBy_filterMap_rank pred (n + 1) fs]
    · simp [hp, List.countP_cons, assignRanksBy_filterMap_rank pred n fs]

/-- Rank assignment preserves the list of sort keys. -/
lemma assignRanksBy_map_popKey (pred : GFeat → Bool) (n : Nat) (l : List GFeat) :
    (assignRanksBy pred n l).map popKey = l.map popKey := by
  have h := congrArg (List.map popKey) (assignRanksBy_map_stripRank pred n l)
  simpa [List.map_map, Function.comp_def, popKey_stripRank] using h

/-- Rank assignment preserves any pairwise relation that only looks at the sort
key. -/
lemma assignRanksBy_pairwise (R : ℚ → ℚ → Prop) (pred : GFeat → Bool) (n : Nat)
    (l : List GFeat) (h : l.Pairwise (fun a b => R (popKey a) (popKey b))) :
    (assignRanksBy pred n l).Pairwise (fun a b => R (popKey a) (popKey b)) := by
  have h1 : (l.map popKey).Pairwise R := (List.pairwise_map).mpr h
  have h2 : ((assignRanksBy pred n l).map popKey).Pairwise R := by
    rw [assignRanksBy_map_popKey]; exact h1
  exact (List.pairwise_map).mp h2

/-- Stability of the modelled sort, in filter form: the features carrying any
fixed sort key appear in the sorted output exactly as they appear in the
input. -/
lemma insertionSort_filter_key (r : GFeat → GFeat → Prop) [DecidableRel r]
    [IsTotal GFeat r] [IsTrans GFeat r] (l : List GFeat) (v : ℚ)
    (hsame : ∀ a b : GFeat, popKey a = v → popKey b = v → r a b) :
    (List.insertionSort r l).filter (fun f => popKey f = v) =
      l.filter (fun f => popKey f = v) := by
  have hpair : (l.filter (fun f => decide (popKey f = v))).Pairwise r := by
    apply List.pairwise_of_forall_mem_list
    intro a ha b hb
    rw [List.mem_filter] at ha hb
    exact hsame a b (by simpa using ha.2) (by simpa using hb.2)
  have hsub : List.Sublist (l.filter (fun f => decide (popKey f = v)))
      (List.insertionSort r l) :=
    List.sublist_insertionSort hpair (List.filter_sublist l)
  have hsub2 : List.Sublist (l.filter (fun f => decide (popKey f = v)))
      ((List.insertionSort r l).filter (fun f => decide (popKey f = v))) := by
    have h2 := hsub.filter (fun f => decide (popKey f = v))
    rwa [List.filter_filter,
      show ((fun f => decide (popKey f = v) && decide (popKey f = v)) : GFeat → Bool) =
        (fun f => decide (popKey f = v)) by
          funext f; cases hf : decide (popKey f = v) <;> simp [hf]] at h2
  have hlen : ((List.insertionSort r l).filter (fun f => decide (popKey f = v))).length =
      (l.filter (fun f => decide (popKey f = v))).length := by
    have hperm : List.Perm (List.insertionSort r l) l := List.perm_insertionSort r l
    simpa using (hperm.filter (fun f => decide (popKey f = v))).length_eq
  exact (hsub2.eq_of_length hlen.symm).symm

/-- Filtering on the sort key commutes with erasing ranks. -/
lemma filter_key_map_stripRank (l : List GFeat) (v : ℚ) :
    (l.map stripRank).filter (fun f => popKey f = v) =
      (l.filter (fun f => popKey f = v)).map stripRank :=
  List.filter_map stripRank l

/-- Every feature of the Leaflet ranked output carries the population of some
input feature. -/
lemma combinedEffect_mem_pop (g o : List GFeat) {f' : GFeat}
    (hf' : f' ∈ (combinedEffect g o).1) :
    ∃ f ∈ g ++ o, f'.properties.pop = f.properties.pop := by
  obtain ⟨f1, hf1, hst⟩ := assignRanksBy_mem finitePop 1 _ hf'
  have hf1' : f1 ∈ g.map recomputeDensity ++ o.map recomputeDensity :=
    (List.perm_insertionSort popDesc _).mem_iff.mp hf1
  rw [← List.map_append] at hf1'
  obtain ⟨f0, hf0, heq⟩ := List.mem_map.mp hf1'
  refine ⟨f0, hf0, ?_⟩
  have h1 : f'.properties.pop = f1.properties.pop := by
    have h2 := congrArg (fun x => x.properties.pop) hst
    simpa [stripRank] using h2
  rw [h1, ← heq]
  exact recomputeDensity_pop f0

/-- Example features from the spec's rank-assignment test: populations
`[50000, null, 20000, 20000]`. -/
def exA : GFeat := { properties := { id := some "a", pop := some 50000, kind := .gemeinde } }

/-- Second example feature: unknown population. -/
def exB : GFeat := { properties := { id := some "b", pop := none, kind := .gemeinde } }

/-- Third example feature: population 20000. -/
def exC : GFeat := { properties := { id := some "c", pop := some 20000, kind := .gemeinde } }

/-- Fourth example feature: population 20000 (tie with the third). -/
def exD : GFeat := { properties := { id := some "d", pop := some 20000, kind := .gemeinde } }

/-- The example collection. -/
def exFC : FC := ⟨[exA, exB, exC, exD]⟩

/-- Claim C1, corrected.  The claim as frozen (population-descending sort, dense
ranks `1..N` over exactly the known-population features, example ranks
`[1, undefined, 2, 3]`) holds of the Leaflet variant only; the MapLibre variant
sorts population-ascending (unknowns still last) and gives a rank exactly to
the features with truthy — nonzero, known — population.  Conjuncts, Leaflet
variant (`combinedEffect _ _ |>.1`): the output is a permutation of the merged
input (up to the rewritten rank field); it is sorted by `popKey` descending;
when all known populations are non-negative, unknown-population features come
last; a feature carries a rank exactly when its population is known; the ranks
read in output order are exactly `1..N` where `N` counts the known-population
features; ties keep the original relative order (the features with any fixed
sort key appear exactly as in the input).  MapLibre variant
(`mapLibreCombined`): the output is sorted by the ascending-with-unknowns-last
comparator; a feature carries a rank exactly when its population is truthy;
ranks are `1..N` over the truthy-population features; ties keep input order.
Finally, on the spec's example the Leaflet variant assigns
`[1, undefined, 2, 3]` as claimed. -/
theorem c1_rank_assignment :
    (∀ g o : List GFeat,
      List.Perm ((combinedEffect g o).1.map stripRank)
        ((g.map recomputeDensity ++ o.map recomputeDensity).map stripRank) ∧
      (combinedEffect g o).1.Pairwise (fun a b => popKey b ≤ popKey a) ∧
      ((∀ f ∈ g ++ o, ∀ q : ℚ, f.properties.pop = some q → 0 ≤ q) →
        (combinedEffect g o).1.Pairwise
          (fun a b => a.properties.pop = none → b.properties.pop = none)) ∧
      (∀ f' ∈ (combinedEffect g o).1, f'.properties.rank.isSome = finitePop f') ∧
      (combinedEffect g o).1.filterMap (fun f => f.properties.rank) =
        List.range' 1 ((g ++ o).countP finitePop) ∧
      (∀ v : ℚ,
        ((combinedEffect g o).1.filter (fun f => popKey f = v)).map stripRank =
          ((g.map recomputeDensity ++ o.map recomputeDensity).filter
            (fun f => popKey f = v)).map stripRank)) ∧
    (∀ g o : Option FC,
      (mapLibreCombined g o).Pairwise mlAsc ∧
      (∀ f' ∈ mapLibreCombined g o, f'.properties.rank.isSome = truthyPop f') ∧
      (mapLibreCombined g o).filterMap (fun f => f.properties.rank) =
        List.range' 1 ((featsOf g ++ featsOf o).countP truthyPop) ∧
      (∀ v : ℚ,
        ((mapLibreCombined g o).filter (fun f => popKey f = v)).map stripRank =
          ((featsOf g ++ featsOf o).filter (fun f => popKey f = v)).map stripRank)) ∧
    (leafletCombined (some exFC) none).map
        (fun f => (f.properties.id, f.properties.rank)) =
      [(some "a", some 1), (some "c", some 2), (some "d", some 3),
        (some "b", (none : Option Nat))] := by
  refine ⟨fun g o => ⟨?_, ?_, ?_, ?_, ?_, ?_⟩, fun g o => ⟨?_, ?_, ?_, ?_⟩, by decide⟩
  · rw [combinedEffect, assignRanksBy_map_stripRank]
    exact (List.perm_insertionSort popDesc _).map stripRank
  · exact assignRanksBy_pairwise (fun x y => y ≤ x) finitePop 1 _
      (List.sorted_insertionSort popDesc _)
  · intro hnn
    have hsorted := assignRanksBy_pairwise (fun x y => y ≤ x) finitePop 1
      (List.insertionSort popDesc (g.map recomputeDensity ++ o.map recomputeDensity))
      (List.sorted_insertionSort popDesc _)
    have hpop : ∀ f' ∈ (combinedEffect g o).1, ∀ q : ℚ,
        f'.properties.pop = some q → 0 ≤ q := by
      intro f' hf' q hq
      obtain ⟨f, hf, hpe⟩ := combinedEffect_mem_pop g o hf'
      exact hnn f hf q (hpe ▸ hq)
    refine List.Pairwise.imp_of_mem ?_ hsorted
    intro a b ha hb hle hnone
    cases hb' : b.properties.pop with
    | none => rfl
    | some q =>
      exfalso
      have h0 : (0 : ℚ) ≤ q := hpop b hb q hb'
      have hka : popKey a = -1 := by simp [popKey, hnone]
      have hkb : popKey b = q := by simp [popKey, hb']
      rw [hka, hkb] at hle
      linarith
  · exact assignRanksBy_rank_isSome finitePop
      (fun a b h => by unfold finitePop; rw [h]) 1 _
  · rw [combinedEffect, assignRanksBy_filterMap_rank]
    congr 1
    have h1 := (List.perm_insertionSort popDesc
      (g.map recomputeDensity ++ o.map recomputeDensity)).countP_eq finitePop
    rw [h1, ← List.map_append, List.countP_map]
    apply List.countP_congr
    intro f _
    unfold Function.comp finitePop
    rw [recomputeDensity_pop]
  · intro v
    rw [combinedEffect]
    have h1 : ((assignRanksBy finitePop 1
        (List.insertionSort popDesc
          (g.map recomputeDensity ++ o.map recomputeDensity))).filter
        (fun f => popKey f = v)).map stripRank =
        ((assignRanksBy finitePop 1
          (List.insertionSort popDesc
            (g.map recomputeDensity ++ o.map recomputeDensity))).map
          stripRank).filter (fun f => popKey f = v) :=
      (filter_key_map_stripRank _ v).symm
    rw [h1, assignRanksBy_map_stripRank, filter_key_map_stripRank,
      insertionSort_filter_key popDesc _ v
        (fun a b ha hb => by unfold popDesc; rw [ha, hb])]
  · exact assignRanksBy_pairwise
      (fun x y => if x = -1 then y = -1 else (y = -1 ∨ x ≤ y)) truthyPop 1 _
      (List.sorted_insertionSort mlAsc _)
  · exact assignRanksBy_rank_isSome truthyPop
      (fun a b h => by unfold truthyPop; rw [h]) 1 _
  · rw [mapLibreCombined, assignRanksBy_filterMap_rank]
    congr 1
    exact (List.perm_insertionSort mlAsc _).countP_eq truthyPop
  · intro v
    rw [mapLibreCombined]
    have h1 : ((assignRanksBy truthyPop 1
        (List.insertionSort mlAsc (featsOf g ++ featsOf o))).filter
        (fun f => popKey f = v)).map stripRank =
        ((assignRanksBy truthyPop 1
          (List.insertionSort mlAsc (featsOf g ++ featsOf o))).map
          stripRank).filter (fun f => popKey f = v) :=
      (filter_key_map_stripRank _ v).symm
    rw [h1, assignRanksBy_map_stripRank, filter_key_map_stripRank,
      insertionSort_filter_key mlAsc _ v
        (fun a b ha hb => by
          unfold mlAsc
          by_cases h : v = -1
          · rw [if_pos (ha.trans h), hb, h]
          · rw [if_neg (fun hc => h (ha.symm.trans hc))]
            right
            rw [ha, hb])]

/-- Witness for C1 at the spec's example input: instantiates the
unknown-population-last conjunct (discharging its non-negativity hypothesis)
and the rank-iff-known-population conjunct (discharging its membership
hypothesis) at concrete features. -/
theorem c1_rank_assignment_witness :
    (leafletCombined (some exFC) none).Pairwise
      (fun a b => a.properties.pop = none → b.properties.pop = none) ∧
    ({ exA with properties :=
        { exA.properties with rank := some 1 } } : GFeat).properties.rank.isSome =
      finitePop { exA with properties := { exA.properties with rank := some 1 } } := by
  constructor
  · refine (c1_rank_assignment.1 (featsOf (some exFC)) (featsOf none)).2.2.1 ?_
    intro f hf q hq
    have hf' : f = exA ∨ f = exB ∨ f = exC ∨ f = exD := by
      simpa [featsOf, exFC] using hf
    rcases hf' with rfl | rfl | rfl | rfl
    · rw [show exA.properties.pop = some 50000 from rfl] at hq
      cases hq; norm_num
    · rw [show exB.properties.pop = none from rfl] at hq
      exact Option.noConfusion hq
    · rw [show exC.properties.pop = some 20000 from rfl] at hq
      cases hq; norm_num
    · rw [show exD.properties.pop = some 20000 from rfl] at hq
      cases hq; norm_num
  · exact (c1_rank_assignment.1 (featsOf (some exFC)) (featsOf none)).2.2.2.1 _ (by decide)

/-- Counterexample for C1 as frozen: in the MapLibre variant the example input
with populations `[50000, null, 20000, 20000]` is sorted population-ascending,
so the feature with population 50000 (id `"a"`) receives rank 3, not rank 1 as
the claim requires. -/
theorem c1_rank_assignment_counterexample :
    (mapLibreCombined (some exFC) none).map
        (fun f => (f.properties.id, f.properties.rank)) =
      [(some "c", some 1), (some "d", some 2), (some "a", some 3),
        (some "b", (none : Option Nat))] ∧
    ¬ (∀ f ∈ mapLibreCombined (some exFC) none,
        f.properties.id = some "a" → f.properties.rank = some 1) := by
  constructor
  · decide
  · decide

/-! ### Claim C8: in-place mutation of the loaded collections -/

/-- A district feature as delivered by the external `ortsteile.geojson`:
population and area present but no precomputed density. -/
def fMut : GFeat :=
  { properties :=
      { id := some "m", pop := some 100, area_km2 := some 2,
        kind := .ortsteil } }

/-- Counterexample for C8 as frozen: the Leaflet `combined` memo's density
loop writes the computed density into the stored features in place, so after
it runs the fetched ortsteile collection differs from what was loaded. -/
theorem c8_immutability_counterexample :
    (combinedEffect [] [fMut]).2.2 ≠ [fMut] ∧
    (combinedEffect [] [fMut]).2.2 =
      [{ fMut with properties := { fMut.properties with density := some 50 } }] := by
  constructor
  · decide
  · norm_num [combinedEffect, recomputeDensity, fMut]

/-- Claim C8, corrected: the only in-place mutation of the loaded collections
is the density recomputation — after the Leaflet `combined` memo runs, each
stored collection equals its original mapped by `recomputeDensity`, which can
change nothing but the `density` field, never touches a feature whose density
is already present, and writes `pop / area` exactly when density was absent
and `pop` and a positive `area_km2` are present.  The sort, the ranking, the
per-kind split and the filtering all build fresh lists and feature objects. -/
theorem c8_immutability :
    (∀ g o : List GFeat,
      (combinedEffect g o).2.1 = g.map recomputeDensity ∧
      (combinedEffect g o).2.2 = o.map recomputeDensity) ∧
    (∀ f : GFeat,
      (recomputeDensity f).properties =
        { f.properties with density := (recomputeDensity f).properties.density } ∧
      (recomputeDensity f).geometry = f.geometry ∧
      (f.properties.density.isSome → recomputeDensity f = f) ∧
      (recomputeDensity f ≠ f →
        f.properties.density = none ∧
        ∃ p a : ℚ, f.properties.pop = some p ∧ f.properties.area_km2 = some a ∧
          0 < a ∧ (recomputeDensity f).properties.density = some (p / a))) := by
  refine ⟨fun g o => ⟨rfl, rfl⟩, fun f => ⟨?_, ?_, ?_, ?_⟩⟩
  · unfold recomputeDensity
    split
    · split <;> rfl
    · rfl
  · unfold recomputeDensity
    split
    · split <;> rfl
    · rfl
  · intro hd
    unfold recomputeDensity
    split
    · rename_i heq _ _
      rw [heq] at hd
      cases hd
    · rfl
  · intro hne
    unfold recomputeDensity at hne
    split at hne
    · rename_i p a heq hpop harea
      split at hne
      · rename_i hpos
        refine ⟨heq, p, a, hpop, harea, hpos, ?_⟩
        unfold recomputeDensity
        rw [heq, hpop, harea]
        simp [hpos]
      · exact absurd rfl hne
    · exact absurd rfl hne

/-- Witness for C8 at a concrete feature: a feature whose density is already
present is returned unchanged. -/
theorem c8_immutability_witness :
    recomputeDensity
        { properties := { id := some "w", density := some 7, kind := Kind.gemeinde } } =
      { properties := { id := some "w", density := some 7, kind := Kind.gemeinde } } :=
  (c8_immutability.2
    { properties := { id := some "w", density := some 7, kind := Kind.gemeinde } }).2.2.1
    (by decide)

/-! ### Search normalization and the searchable list (Leaflet variant) -/

/-- Combining diaeresis, the NFD decomposition mark of the German umlauts. -/
def markUmlaut : Char := Char.ofNat 776

/-- Models `String.prototype.toLowerCase` on the alphabet relevant here:
ASCII letters plus the German capital umlauts. -/
def germanLower (c : Char) : Char :=
  if c = 'Ä' then 'ä' else if c = 'Ö' then 'ö' else if c = 'Ü' then 'ü' else c.toLower

/-- Models `String.prototype.normalize` with form NFD on the German alphabet:
the precomposed lowercase umlauts decompose into a base letter followed by the
combining diaeresis; `ß` and every other letter used here are unchanged. -/
def nfdChar (c : Char) : List Char :=
  if c = 'ä' then ['a', markUmlaut]
  else if c = 'ö' then ['o', markUmlaut]
  else if c = 'ü' then ['u', markUmlaut]
  else [c]

/-- Models the regular-expression class `\p{Diacritic}` on the combining
diacritical marks block. -/
def isDiacritic (c : Char) : Bool := 0x300 ≤ c.toNat && c.toNat ≤ 0x36F

/-- The four chained `replace` calls `ä→ae, ö→oe, ü→ue, ß→ss`.  Their outputs
contain none of the replaced characters, so the sequential global replaces
coincide with one simultaneous character-wise expansion. -/
def umlautFold (c : Char) : List Char :=
  if c = 'ä' then ['a', 'e']
  else if c = 'ö' then ['o', 'e']
  else if c = 'ü' then ['u', 'e']
  else if c = 'ß' then ['s', 's']
  else [c]

/-- The Leaflet variant's `norm`: lowercase, NFD-decompose, strip diacritics,
then apply the umlaut/eszett replacements (in the source's order — the
replacements run after the diacritics have already been stripped). -/
def jsNorm (s : String) : String :=
  String.mk
    ((((s.toList.map germanLower).flatMap nfdChar).filter
        (fun c => !(isDiacritic c))).flatMap umlautFold)

/-- Contiguous-substring test on character lists: a prefix match at some
suffix position. -/
def includesL (hay sub : List Char) : Bool :=
  match hay with
  | [] => sub.isEmpty
  | _ :: t => List.isPrefixOf sub hay || includesL t sub

/-- `hay.includes(sub)`. -/
def jsIncludes (hay sub : String) : Bool := includesL hay.toList sub.toList

/-- The Leaflet variant's match `m`: normalized substring test against the
normalized query. -/
def normMatch (q s : String) : Bool := jsIncludes (jsNorm s) (jsNorm q)

/-- Models `String.prototype.trim`. -/
def jsTrim (s : String) : String :=
  String.mk (((s.toList.dropWhile (fun c => c.isWhitespace)).reverse.dropWhile
    (fun c => c.isWhitespace)).reverse)

/-- The Leaflet application state: the two fetched collections, the query and
the two visibility toggles (the color-mode flag plays no role in any claim
and is omitted). -/
structure AppState where
  gemeinden : Option FC
  ortsteile : Option FC
  query : String
  showGemeinden : Bool
  showOrtsteile : Bool
deriving DecidableEq, Repr

/-- Flipping the Gemeinden switch (`onCheckedChange={setShowGemeinden}`):
only the boolean flag changes. -/
def toggleGemeinden (s : AppState) : AppState :=
  { s with showGemeinden := !s.showGemeinden }

/-- Flipping the Ortsteile switch: only the boolean flag changes. -/
def toggleOrtsteile (s : AppState) : AppState :=
  { s with showOrtsteile := !s.showOrtsteile }

/-- The `gemeindenOnly` memo: `null` while the gemeinden dataset is absent,
otherwise the gemeinde-kind features of the ranked merged sequence. -/
def gemeindenOnly (s : AppState) : Option FC :=
  match s.gemeinden with
  | none => none
  | some _ => some ⟨(leafletCombined s.gemeinden s.ortsteile).filter
      (fun f => f.properties.kind = Kind.gemeinde)⟩

/-- The `ortsteileOnly` memo, symmetric to `gemeindenOnly`. -/
def ortsteileOnly (s : AppState) : Option FC :=
  match s.ortsteile with
  | none => none
  | some _ => some ⟨(leafletCombined s.gemeinden s.ortsteile).filter
      (fun f => f.properties.kind = Kind.ortsteil)⟩

/-- The base of the Leaflet `listItems` memo:
`showGemeinden ? (gemeindenOnly?.features ?? []) : (ortsteileOnly?.features ?? [])`. -/
def listBase (s : AppState) : List GFeat :=
  if s.showGemeinden then
    (match gemeindenOnly s with | some fc => fc.features | none => [])
  else
    (match ortsteileOnly s with | some fc => fc.features | none => [])

/-- The filter step of the Leaflet `listItems` memo: an empty (after trim)
query skips filtering, otherwise keep the features matching the query on name,
county or ags.  A missing `name` would make the source throw, so it is matched
as the empty string here. -/
def listFiltered (s : AppState) : List GFeat :=
  if (jsTrim s.query).length = 0 then listBase s
  else
    (listBase s).filter (fun f =>
      normMatch s.query (f.properties.name.getD "") ||
      (match f.properties.county with
       | some c => normMatch s.query c
       | none => false) ||
      (match f.properties.ags with
       | some a => normMatch s.query a
       | none => false))

/-- The Leaflet `listItems` memo: base, filter, then sort by population
descending. -/
def leafletListItems (s : AppState) : List GFeat :=
  List.insertionSort popDesc (listFiltered s)

/-- The Leaflet gemeinden map layer: rendered only when the toggle is on and
the view exists (`showGemeinden && gemeindenOnly && <GeoJSON .../>`). -/
def gemLayer (s : AppState) : Option FC :=
  if s.showGemeinden then gemeindenOnly s else none

/-- The Leaflet ortsteile map layer. -/
def ortLayer (s : AppState) : Option FC :=
  if s.showOrtsteile then ortsteileOnly s else none

/-! ### MapLibre variant: searchable list and layers -/

/-- Models `String.prototype.toLowerCase` as used by the MapLibre `nameMatch`. -/
def mlLower (s : String) : String := String.mk (s.toList.map germanLower)

/-- The MapLibre `nameMatch`: plain lowercase substring test, no diacritic
handling. -/
def mlMatch (q s : String) : Bool := jsIncludes (mlLower s) (mlLower q)

/-- The MapLibre `listItems` memo: filters the whole ranked merged sequence by
the query against name, parent or county.  It consults neither visibility
toggle. -/
def mapLibreListItems (g o : Option FC) (q : String) : List GFeat :=
  (mapLibreCombined g o).filter (fun f =>
    mlMatch q (f.properties.name.getD "") ||
    (match f.properties.parent with
     | some p => mlMatch q p
     | none => false) ||
    (match f.properties.county with
     | some c => mlMatch q c
     | none => false))

/-- The MapLibre list read off an application state (the state record is the
same shape as the Leaflet one); the toggles are simply not consulted. -/
def mlListItemsOf (s : AppState) : List GFeat :=
  mapLibreListItems s.gemeinden s.ortsteile s.query

/-- The MapLibre `gemeindenFC` memo. -/
def mlGemeindenFC (g o : Option FC) : Option FC :=
  match g with
  | none => none
  | some _ => some ⟨(mapLibreCombined g o).filter
      (fun f => f.properties.kind = Kind.gemeinde)⟩

/-- The MapLibre `ortsteileFC` memo. -/
def mlOrtsteileFC (g o : Option FC) : Option FC :=
  match o with
  | none => none
  | some _ => some ⟨(mapLibreCombined g o).filter
      (fun f => f.properties.kind = Kind.ortsteil)⟩

/-- The MapLibre gemeinden layer: rendered only when toggle and data are
present (`showGemeinden && gemeindenFC && <Source .../>`). -/
def mlGemLayer (shown : Bool) (g o : Option FC) : Option FC :=
  if shown then mlGemeindenFC g o else none

/-- The MapLibre ortsteile layer. -/
def mlOrtLayer (shown : Bool) (g o : Option FC) : Option FC :=
  if shown then mlOrtsteileFC g o else none

/-! ### Claim C7: visibility toggles -/

/-- An ortsteil feature used in the toggle scenarios. -/
def exO : GFeat := { properties := { id := some "o1", pop := some 500, kind := .ortsteil } }

/-- Both datasets loaded, both toggles off, empty query. -/
def c7State : AppState :=
  { gemeinden := some ⟨[exA]⟩, ortsteile := some ⟨[exO]⟩, query := "",
    showGemeinden := false, showOrtsteile := false }

/-- Counterexample for C7 as frozen: with both toggles off the Leaflet
searchable list still shows the ortsteile features (the base expression falls
back to the ortsteile view whenever the gemeinden toggle is off, ignoring the
ortsteile toggle), so a dataset's features can appear in the list while its
toggle is disabled. -/
theorem c7_toggles_counterexample :
    (leafletListItems c7State).map (fun f => f.properties.kind) = [Kind.ortsteil] ∧
    c7State.showOrtsteile = false ∧
    ¬ (∀ f ∈ leafletListItems c7State,
        f.properties.kind = Kind.ortsteil → c7State.showOrtsteile = true) := by
  refine ⟨by decide, rfl, by decide⟩

/-- Claim C7, corrected.  Leaflet variant: the searchable list shows the
gemeinden view when the gemeinden toggle is on and otherwise the ortsteile
view regardless of the ortsteile toggle (so a gemeinde-kind feature appears
only if `showGemeinden`, and an ortsteil-kind feature appears exactly when
`¬showGemeinden`, even when `showOrtsteile` is off); each map layer renders
only while its own toggle is on; toggling only flips a boolean flag — the
fetched collections are untouched and toggling twice restores the exact
state, so re-enabling restores the same features without a new fetch.
MapLibre variant: the searchable list never consults the toggles (toggling
leaves it unchanged), and each map layer renders only while its toggle is
on. -/
theorem c7_toggles :
    (∀ s : AppState, ∀ f ∈ leafletListItems s,
      (f.properties.kind = Kind.gemeinde → s.showGemeinden = true) ∧
      (f.properties.kind = Kind.ortsteil → s.showGemeinden = false)) ∧
    (∀ s : AppState, s.showGemeinden = false → gemLayer s = none) ∧
    (∀ s : AppState, s.showOrtsteile = false → ortLayer s = none) ∧
    (∀ s : AppState, toggleGemeinden (toggleGemeinden s) = s ∧
      toggleOrtsteile (toggleOrtsteile s) = s) ∧
    (∀ s : AppState,
      (toggleGemeinden s).gemeinden = s.gemeinden ∧
      (toggleGemeinden s).ortsteile = s.ortsteile ∧
      (toggleOrtsteile s).gemeinden = s.gemeinden ∧
      (toggleOrtsteile s).ortsteile = s.ortsteile) ∧
    (∀ s : AppState, mlListItemsOf (toggleGemeinden s) = mlListItemsOf s ∧
      mlListItemsOf (toggleOrtsteile s) = mlListItemsOf s) ∧
    (∀ (g o : Option FC), mlGemLayer false g o = none ∧ mlOrtLayer false g o = none) := by
  refine ⟨?_, ?_, ?_, ?_, ?_, ?_, ?_⟩
  · intro s f hf
    have hf1 : f ∈ listFiltered s :=
      (List.perm_insertionSort popDesc (listFiltered s)).mem_iff.mp hf
    have hf2 : f ∈ listBase s := by
      unfold listFiltered at hf1
      split at hf1
      · exact hf1
      · exact List.mem_of_mem_filter hf1
    unfold listBase at hf2
    by_cases hg : s.showGemeinden
    · rw [if_pos hg] at hf2
      have hkind : f.properties.kind = Kind.gemeinde := by
        unfold gemeindenOnly at hf2
        cases hge : s.gemeinden with
        | none => rw [hge] at hf2; cases hf2
        | some fc =>
          rw [hge] at hf2
          simpa using (List.mem_filter.mp hf2).2
      exact ⟨fun _ => hg, fun hk => by rw [hkind] at hk; cases hk⟩
    · rw [if_neg hg] at hf2
      have hkind : f.properties.kind = Kind.ortsteil := by
        unfold ortsteileOnly at hf2
        cases hoe : s.ortsteile with
        | none => rw [hoe] at hf2; cases hf2
        | some fc =>
          rw [hoe] at hf2
          simpa using (List.mem_filter.mp hf2).2
      refine ⟨fun hk => ?_, fun _ => Bool.eq_false_iff.mpr hg ▸ rfl⟩
      · rw [hkind] at hk; cases hk
  · intro s hs
    unfold gemLayer
    rw [hs]
    rfl
  · intro s hs
    unfold ortLayer
    rw [hs]
    rfl
  · intro s
    constructor <;> simp [toggleGemeinden, toggleOrtsteile]
  · intro s
    exact ⟨rfl, rfl, rfl, rfl⟩
  · intro s
    exact ⟨rfl, rfl⟩
  · intro g o
    exact ⟨rfl, rfl⟩

/-- Witness for C7 at the concrete both-toggles-off state: the toggle theorem
instantiated at the ranked ortsteil feature of `c7State`, and the layer
conjuncts at `c7State`; discharges the membership and flag hypotheses. -/
theorem c7_toggles_witness :
    c7State.showGemeinden = false ∧ gemLayer c7State = none ∧
      ortLayer c7State = none := by
  refine ⟨?_, ?_, ?_⟩
  · exact (c7_toggles.1 c7State
      { exO with properties := { exO.properties with rank := some 2 } } (by decide)).2 rfl
  · exact c7_toggles.2.1 c7State rfl
  · exact c7_toggles.2.2.1 c7State rfl

/-! ### Claim C3: search filter -/

/-- A feature named München, as the active gemeinden dataset would carry it. -/
def munchenFeat : GFeat :=
  { properties :=
      { id := some "09162000", name := some "München", county := some "München",
        ags := some "09162000", pop := some 1500000, kind := .gemeinde } }

/-- The Leaflet state with the München feature loaded, gemeinden active, and a
given query. -/
def c3State (q : String) : AppState :=
  { gemeinden := some ⟨[munchenFeat]⟩, ortsteile := none, query := q,
    showGemeinden := true, showOrtsteile := false }

/-- Claim C3 evaluated at the failing input (code bug).  The Leaflet `norm`
strips the combining marks produced by the NFD step before the `ä→ae, ö→oe,
ü→ue` replacements run — and those regexes match only precomposed characters,
which NFD has already removed — so `"München"` normalizes to `"munchen"`
while the query `"muenchen"` stays `"muenchen"`, and the claimed match fails:
the searchable list is empty.  The remaining conjuncts confirm the nearby
behavior: the plain query `"munchen"` and the empty query do match, an empty
query returns the full active dataset unfiltered (up to the pop-descending
re-sort). -/
theorem c3_search_diacritics :
    jsNorm "München" = "munchen" ∧
    jsNorm "muenchen" = "muenchen" ∧
    normMatch "muenchen" "München" = false ∧
    leafletListItems (c3State "muenchen") = [] ∧
    leafletListItems (c3State "munchen") ≠ [] ∧
    (leafletListItems (c3State "")).map (fun f => f.properties.id) =
      [some "09162000"] := by
  refine ⟨by decide, by decide, by decide, by decide, by decide, by decide⟩

/-! ### Claim C6: fetch guarding -/

/-- Result of parsing a response body (`r.json()`): a feature collection, or a
rejection for a malformed body. -/
inductive JsonBody where
  | valid (fc : FC)
  | invalid
deriving DecidableEq, Repr

/-- Outcome of one `fetch`: a settled response with its HTTP-success flag and
body, or a network rejection. -/
inductive FetchOutcome where
  | success (ok : Bool) (body : JsonBody)
  | failure
deriving DecidableEq, Repr

/-- One Leaflet chunk fetch:
`fetch(url).then(r => r.ok ? r.json() : EMPTY).catch(() => EMPTY)` — every
failure mode collapses to the empty collection. -/
def loadChunk : FetchOutcome → FC
  | .success true (.valid fc) => fc
  | .success true .invalid => ⟨[]⟩
  | .success false _ => ⟨[]⟩
  | .failure => ⟨[]⟩

/-- The Leaflet gemeinden load: `Promise.all` over the fixed chunk list, then
concatenation in chunk order, independent of settlement order. -/
def loadGemeindenChunks (outs : List FetchOutcome) : FC :=
  ⟨(outs.map loadChunk).flatMap FC.features⟩

/-- The Leaflet ortsteile load:
`fetch(...).then(r => r.json()).then(setOrtsteile).catch(() => {})` — on any
rejection the catch swallows the error and the state keeps its previous value
(the dataset stays absent).  Note `r.json()` runs regardless of `r.ok`. -/
def loadOrtsteileLeaflet (o : FetchOutcome) (prev : Option FC) : Option FC :=
  match o with
  | .success _ (.valid fc) => some fc
  | _ => prev

/-- A MapLibre dataset load: `fetch(...).then(r => r.json()).then(set)` with
no rejection handler — a failure is a propagated (unhandled) rejection. -/
def loadDatasetMapLibre (o : FetchOutcome) : Except Unit FC :=
  match o with
  | .success _ (.valid fc) => Except.ok fc
  | _ => Except.error ()

/-- The effect of a MapLibre load on the state: set on success; on a rejection
the state keeps its previous value while the rejection escapes. -/
def applyMapLibreLoad (o : FetchOutcome) (prev : Option FC) : Option FC :=
  match loadDatasetMapLibre o with
  | .ok fc => some fc
  | .error _ => prev

/-- Counterexample for C6 as frozen: the MapLibre variant's fetches carry no
rejection handler, so a network failure is a propagated error, not a guarded
empty result — not every fetch in the presentation application is defensively
guarded. -/
theorem c6_fetch_guard_counterexample :
    loadDatasetMapLibre FetchOutcome.failure = Except.error () ∧
    ¬ (∀ o : FetchOutcome, ∃ fc, loadDatasetMapLibre o = Except.ok fc) := by
  constructor
  · rfl
  · intro h
    obtain ⟨fc, hfc⟩ := h FetchOutcome.failure
    cases hfc

/-- Claim C6, corrected.  Leaflet variant: every fetch is guarded — a chunk
that fails (network rejection, non-ok response, or malformed body) yields the
empty collection, a failed chunk contributes nothing to the concatenated
result while the other chunks are unaffected, and a failed ortsteile fetch
leaves that dataset exactly as it was (absent).  MapLibre variant: a failed
fetch also leaves the dataset absent, but the rejection propagates unhandled
instead of being swallowed. -/
theorem c6_fetch_guard :
    (∀ b : JsonBody, loadChunk (.success false b) = ⟨[]⟩) ∧
    loadChunk .failure = ⟨[]⟩ ∧
    loadChunk (.success true .invalid) = ⟨[]⟩ ∧
    (∀ outs1 outs2 : List FetchOutcome,
      loadGemeindenChunks (outs1 ++ FetchOutcome.failure :: outs2) =
        loadGemeindenChunks (outs1 ++ outs2)) ∧
    (∀ prev : Option FC, loadOrtsteileLeaflet .failure prev = prev) ∧
    (∀ (prev : Option FC) (b : Bool),
      loadOrtsteileLeaflet (.success b .invalid) prev = prev) ∧
    (∀ prev : Option FC, applyMapLibreLoad .failure prev = prev) ∧
    (loadDatasetMapLibre .failure).isOk = false := by
  refine ⟨fun b => rfl, rfl, rfl, ?_, fun prev => rfl, fun prev b => rfl,
    fun prev => rfl, rfl⟩
  intro outs1 outs2
  unfold loadGemeindenChunks
  simp [loadChunk]

/-! ### Data producer (`fetch_vg250_ew.js`) -/

/-- A raw numeric JSON field as the producer reads it: a finite number, a
string, or anything else (absent, `null`, or another type — all of which fail
both the `Number.isFinite` and the `typeof ... === 'string'` tests). -/
inductive RawNum where
  | fin (q : ℚ)
  | str (s : String)
  | other
deriving DecidableEq, Repr

/-- Digit run to number. -/
def digitsVal (cs : List Char) : ℚ :=
  cs.foldl (fun n c => 10 * n + ((c.toNat - 48 : Nat) : ℚ)) 0

/-- Models JavaScript `Number(s)` on optional-sign decimal forms (the shapes
the population and area strings take); a whitespace-only string is `0`; any
other shape is NaN (`none`). -/
def jsNumber (s : String) : Option ℚ :=
  let cs := ((s.toList.dropWhile (fun c => c.isWhitespace)).reverse.dropWhile
    (fun c => c.isWhitespace)).reverse
  if cs.isEmpty then some 0
  else
    let sgn : ℚ := match cs with | '-' :: _ => -1 | _ => 1
    let rest := match cs with | '-' :: r => r | '+' :: r => r | r => r
    let intPart := rest.takeWhile (fun c => c.isDigit)
    let rest2 := rest.dropWhile (fun c => c.isDigit)
    match rest2 with
    | [] => if intPart.isEmpty then none else some (sgn * digitsVal intPart)
    | '.' :: fracs =>
      if fracs.all (fun c => c.isDigit) && !(intPart.isEmpty && fracs.isEmpty) then
        some (sgn * (digitsVal intPart + digitsVal fracs / (10 : ℚ) ^ fracs.length))
      else none
    | _ => none

/-- `s.replace(/,/g, '')`. -/
def stripCommas (s : String) : String :=
  String.mk (s.toList.filter (fun c => c ≠ ','))

/-- The producer's numeric-field parse:
`Number.isFinite(x) ? x : (typeof x === 'string' ? Number(x.replace(/,/g,'')) : null)`. -/
def parseNumField : RawNum → Option ℚ
  | .fin q => some q
  | .str s => jsNumber (stripCommas s)
  | .other => none

/-- `s.padStart(n, '0')`. -/
def padStart (n : Nat) (s : String) : String :=
  if s.length < n then String.mk (List.replicate (n - s.length) '0') ++ s else s

/-- `a || b` on an optional string against a string default: missing and empty
are both falsy. -/
def jsOrStr (a : Option String) (b : String) : String :=
  match a with
  | some s => if s = "" then b else s
  | none => b

/-- Raw county (Kreis) feature properties used by the producer. -/
structure KrsRaw where
  ars : Option String := none
  gen : Option String := none
  bez : Option String := none
deriving DecidableEq, Repr

/-- The value stored in the county lookup: `{ name: p.gen, bez: p.bez }`. -/
structure KreisInfo where
  name : Option String
  bez : Option String
deriving DecidableEq, Repr

/-- `Map.prototype.set`: overwrite an existing key or append a new entry. -/
def mapSet (m : List (String × KreisInfo)) (k : String) (v : KreisInfo) :
    List (String × KreisInfo) :=
  if m.any (fun e => e.1 = k) then m.map (fun e => if e.1 = k then (k, v) else e)
  else m ++ [(k, v)]

/-- The `krsBy5` lookup: every county keyed by its 5-character padded ARS. -/
def krsBy5 (krs : List KrsRaw) : List (String × KreisInfo) :=
  krs.foldl (fun m f => mapSet m (padStart 5 (jsOrStr f.ars "")) ⟨f.gen, f.bez⟩) []

/-- Raw municipality feature properties fed to the producer loop. -/
structure GemRaw where
  ags : Option String := none
  ars : Option String := none
  sdv_ars : Option String := none
  gen : Option String := none
  ewz : RawNum := .other
  kfl : RawNum := .other
  geometry : Nat := 0
deriving DecidableEq, Repr

/-- `String(p.ars || p.sdv_ars || '').padStart(12,'0').slice(0,5)`. -/
def gemArs5 (g : GemRaw) : String :=
  (padStart 12 (jsOrStr g.ars (jsOrStr g.sdv_ars ""))).take 5

/-- The case-insensitive regular-expression test `/kreisfrei/i`. -/
def kreisfreiTest (s : String) : Bool :=
  includesL (s.toList.map germanLower) "kreisfrei".toList

/-- A template literal `${x}`: `undefined` prints as `"undefined"`. -/
def jsTemplate : Option String → String
  | some s => s
  | none => "undefined"

/-- One municipality feature as built by the producer loop body. -/
def buildGem (m : List (String × KreisInfo)) (g : GemRaw) : GFeat :=
  let ags := padStart 8 (jsOrStr g.ags "")
  let kreis := List.lookup (gemArs5 g) m
  let pop := parseNumField g.ewz
  let area := parseNumField g.kfl
  { properties :=
      { id := some ags
        name := g.gen
        county :=
          match kreis with
          | some k =>
            some (if k.bez = some "Kreisfreie Stadt" ||
                kreisfreiTest (jsOrStr k.bez "") then
              jsTemplate g.gen
            else jsOrStr k.name "")
          | none => none
        ags := some ags
        pop := pop
        area_km2 := area
        density :=
          match pop, area with
          | some p, some a => if 0 < a then some (p / a) else none
          | _, _ => none
        kind := Kind.gemeinde }
    geometry := g.geometry }

/-- The producer's output sequence: the loop
`for (const f of gemFeatures) out.features.push({...})` emits exactly one
feature per municipality, in input order. -/
def producerFeatures (krs : List KrsRaw) (gems : List GemRaw) : List GFeat :=
  gems.map (buildGem (krsBy5 krs))

/-- Claim C5: for every emitted municipality feature, `density` is present
with value `pop / area_km2` exactly when both the (parsed) `pop` and
`area_km2` are present and `area_km2` is positive; otherwise it is absent.
The emitted `pop`/`area_km2` fields are themselves the parse results, so the
density is reproducible from the stored fields alone. -/
theorem c5_density :
    ∀ (krs : List KrsRaw) (gems : List GemRaw), ∀ f ∈ producerFeatures krs gems,
      ∀ d : ℚ, f.properties.density = some d ↔
        ∃ p a : ℚ, f.properties.pop = some p ∧ f.properties.area_km2 = some a ∧
          0 < a ∧ d = p / a := by
  intro krs gems f hf d
  obtain ⟨g, _, rfl⟩ := List.mem_map.mp hf
  unfold buildGem
  cases hp : parseNumField g.ewz with
  | none => simp [hp]
  | some p =>
    cases ha : parseNumField g.kfl with
    | none => simp [hp, ha]
    | some a =>
      by_cases hpos : 0 < a
      · simp only [hp, ha, if_pos hpos]
        constructor
        · intro hd
          exact ⟨p, a, rfl, rfl, hpos, by
            cases hd
            rfl⟩
        · rintro ⟨p', a', hp', ha', _, rfl⟩
          cases hp'
          cases ha'
          rfl
      · simp only [hp, ha, if_neg hpos]
        constructor
        · intro hd
          cases hd
        · rintro ⟨p', a', hp', ha', hpos', rfl⟩
          cases hp'
          cases ha'
          exact absurd hpos' hpos

/-- Witness for C5: a concrete municipality with population 100 and area 4
gets density 25. -/
theorem c5_density_witness :
    (buildGem (krsBy5 []) { ags := some "1", ewz := .fin 100, kfl := .fin 4 }
      : GFeat).properties.density = some 25 := by
  refine ((c5_density [] [{ ags := some "1", ewz := .fin 100, kfl := .fin 4 }] _
    (by simp [producerFeatures]) 25).mpr ⟨100, 4, rfl, rfl, by norm_num, by norm_num⟩)

/-- Claim C9: a municipality whose 5-character county key misses the county
lookup is still emitted — exactly one output feature per input municipality —
and its `county` is absent. -/
theorem c9_county_fallback :
    (∀ (krs : List KrsRaw) (gems : List GemRaw),
      (producerFeatures krs gems).length = gems.length) ∧
    (∀ (krs : List KrsRaw) (g : GemRaw),
      List.lookup (gemArs5 g) (krsBy5 krs) = none →
        (buildGem (krsBy5 krs) g).properties.county = none) ∧
    (∀ (krs : List KrsRaw) (gems : List GemRaw) (g : GemRaw), g ∈ gems →
      buildGem (krsBy5 krs) g ∈ producerFeatures krs gems) := by
  refine ⟨fun krs gems => List.length_map gems _, ?_, ?_⟩
  · intro krs g hl
    unfold buildGem
    rw [hl]
  · intro krs gems g hg
    exact List.mem_map_of_mem (buildGem (krsBy5 krs)) hg

/-- Witness for C9: with no counties fetched the lookup is empty, and a
concrete municipality is emitted with `county` absent. -/
theorem c9_county_fallback_witness :
    (buildGem (krsBy5 []) { ags := some "01051001" } : GFeat).properties.county = none ∧
    buildGem (krsBy5 []) { ags := some "01051001" } ∈
      producerFeatures [] [{ ags := some "01051001" }] :=
  ⟨c9_county_fallback.2.1 [] { ags := some "01051001" } rfl,
   c9_county_fallback.2.2 [] [{ ags := some "01051001" }] { ags := some "01051001" }
     (List.mem_singleton.mpr rfl)⟩

/-! ### Data splitter -/

/-- The splitter only inspects `properties.ags` and `properties.id`. -/
structure SplitProps where
  ags : Option String := none
  id : Option String := none
deriving DecidableEq, Repr

/-- A feature as the splitter sees it: possibly absent properties
(`f.properties?.…`) and an opaque payload standing for everything else. -/
structure SplitFeat where
  props : Option SplitProps := none
  payload : Nat := 0
deriving DecidableEq, Repr

/-- `(f.properties?.ags || f.properties?.id || '').toString().slice(0, 2)`. -/
def stateKey (f : SplitFeat) : String :=
  (jsOrStr (f.props.bind (fun p => p.ags))
    (jsOrStr (f.props.bind (fun p => p.id)) "")).take 2

/-- The loop body: `if (!by.has(state)) by.set(state, []); by.get(state).push(f)` —
create the group on first sight, then append the feature to it. -/
def addFeat (m : List (String × List SplitFeat)) (f : SplitFeat) :
    List (String × List SplitFeat) :=
  let k := stateKey f
  let m1 := if m.any (fun e => e.1 = k) then m else m ++ [(k, [])]
  m1.map (fun e => if e.1 = k then (e.1, e.2 ++ [f]) else e)

/-- The grouping `Map` after the splitter's loop. -/
def splitMap (fs : List SplitFeat) : List (String × List SplitFeat) :=
  fs.foldl addFeat []

/-- `Array.from(by.keys()).sort()`. -/
def splitCodes (fs : List SplitFeat) : List String :=
  List.insertionSort (fun a b : String => a ≤ b) ((splitMap fs).map Prod.fst)

/-- The written output files, in sorted key order, each holding its group. -/
def splitFiles (fs : List SplitFeat) : List (String × List SplitFeat) :=
  (splitCodes fs).map (fun c => (c, (List.lookup c (splitMap fs)).getD []))

/-- Reassembly of all partitions in the order they were written. -/
def reassemble (fs : List SplitFeat) : List SplitFeat :=
  (splitFiles fs).flatMap Prod.snd

lemma lookup_cons_eq {b : List SplitFeat} {es : List (String × List SplitFeat)}
    {k : String} : List.lookup k ((k, b) :: es) = some b := by
  simp [List.lookup_cons]

lemma lookup_cons_ne {k k1 : String} {b : List SplitFeat}
    {es : List (String × List SplitFeat)} (h : ¬ k = k1) :
    List.lookup k ((k1, b) :: es) = List.lookup k es := by
  simp [List.lookup_cons, beq_false_of_ne h]

lemma lookup_map_push (m : List (String × List SplitFeat)) (k k0 : String)
    (f : SplitFeat) :
    List.lookup k (m.map (fun e => if e.1 = k0 then (e.1, e.2 ++ [f]) else e)) =
      if k = k0 then (List.lookup k m).map (fun g => g ++ [f])
      else List.lookup k m := by
  induction m with
  | nil => by_cases h : k = k0 <;> simp [h]
  | cons e m ih =>
    obtain ⟨k1, v⟩ := e
    rw [List.map_cons]
    by_cases h2 : k = k1
    · subst h2
      by_cases h1 : k = k0
      · rw [show (if ((k, v) : String × List SplitFeat).1 = k0 then (k, v ++ [f])
            else (k, v)) = (k, v ++ [f]) from if_pos h1]
        rw [lookup_cons_eq, if_pos h1, lookup_cons_eq]
        rfl
      · rw [show (if ((k, v) : String × List SplitFeat).1 = k0 then (k, v ++ [f])
            else (k, v)) = (k, v) from if_neg h1]
        rw [lookup_cons_eq, if_neg h1, lookup_cons_eq]
    · have hhead : List.lookup k
          ((if ((k1, v) : String × List SplitFeat).1 = k0 then (k1, v ++ [f])
            else (k1, v)) :: m.map (fun e => if e.1 = k0 then (e.1, e.2 ++ [f]) else e)) =
          List.lookup k (m.map (fun e => if e.1 = k0 then (e.1, e.2 ++ [f]) else e)) := by
        by_cases h1 : k1 = k0
        · rw [show (if ((k1, v) : String × List SplitFeat).1 = k0 then (k1, v ++ [f])
              else (k1, v)) = (k1, v ++ [f]) from if_pos h1]
          exact lookup_cons_ne h2
        · rw [show (if ((k1, v) : String × List SplitFeat).1 = k0 then (k1, v ++ [f])
              else (k1, v)) = (k1, v) from if_neg h1]
          exact lookup_cons_ne h2
      rw [hhead, ih, lookup_cons_ne h2]

lemma lookup_eq_none_of_any_false (m : List (String × List SplitFeat)) (k : String)
    (h : m.any (fun e => e.1 = k) = false) : List.lookup k m = none := by
  induction m with
  | nil => rfl
  | cons e m ih =>
    obtain ⟨k1, v⟩ := e
    simp only [List.any_cons, Bool.or_eq_false_iff] at h
    have h1 : ¬ k = k1 := fun hc => by simp [hc.symm] at h
    rw [lookup_cons_ne h1]
    exact ih h.2

lemma lookup_isSome_of_any_true (m : List (String × List SplitFeat)) (k : String)
    (h : m.any (fun e => e.1 = k) = true) : ∃ v, List.lookup k m = some v := by
  induction m with
  | nil => simp at h
  | cons e m ih =>
    obtain ⟨k1, v⟩ := e
    by_cases h2 : k = k1
    · exact ⟨v, by rw [h2, lookup_cons_eq]⟩
    · simp only [List.any_cons] at h
      have h3 : m.any (fun e => e.1 = k) = true := by
        rcases Bool.or_eq_true_iff.mp h with h4 | h4
        · exact absurd ((by simpa using h4 : k1 = k)).symm h2
        · exact h4
      obtain ⟨w, hw⟩ := ih h3
      exact ⟨w, by rw [lookup_cons_ne h2, hw]⟩

/-- The effect of one loop iteration on one group. -/
lemma lookup_addFeat (m : List (String × List SplitFeat)) (f : SplitFeat)
    (k : String) :
    List.lookup k (addFeat m f) =
      if k = stateKey f then some (((List.lookup k m).getD []) ++ [f])
      else List.lookup k m := by
  show List.lookup k
      ((if m.any (fun e => e.1 = stateKey f) then m else m ++ [(stateKey f, [])]).map
        (fun e => if e.1 = stateKey f then (e.1, e.2 ++ [f]) else e)) = _
  by_cases hany : m.any (fun e => e.1 = stateKey f)
  · rw [if_pos hany, lookup_map_push]
    by_cases hk : k = stateKey f
    · rw [if_pos hk, if_pos hk, hk]
      obtain ⟨v, hv⟩ := lookup_isSome_of_any_true m (stateKey f) hany
      rw [hv]
      rfl
    · rw [if_neg hk, if_neg hk]
  · rw [if_neg hany, lookup_map_push]
    by_cases hk : k = stateKey f
    · rw [if_pos hk, if_pos hk, hk]
      have hnone : List.lookup (stateKey f) m = none :=
        lookup_eq_none_of_any_false m (stateKey f) (Bool.eq_false_iff.mpr hany)
      rw [List.lookup_append, hnone, lookup_cons_eq]
      rfl
    · rw [if_neg hk, if_neg hk, List.lookup_append, lookup_cons_ne hk,
        List.lookup_nil]
      cases List.lookup k m <;> rfl

/-- Characterization of the grouping fold. -/
lemma lookup_foldl_addFeat :
    ∀ (fs : List SplitFeat) (m : List (String × List SplitFeat)) (k : String),
      List.lookup k (fs.foldl addFeat m) =
        match List.lookup k m with
        | some g => some (g ++ fs.filter (fun f => stateKey f = k))
        | none =>
          if fs.any (fun f => stateKey f = k)
            then some (fs.filter (fun f => stateKey f = k)) else none
  | [], m, k => by cases h : List.lookup k m <;> simp [h]
  | f :: fs, m, k => by
    rw [List.foldl_cons, lookup_foldl_addFeat fs (addFeat m f) k, lookup_addFeat]
    by_cases hk : k = stateKey f
    · rw [if_pos hk]
      have hfk : stateKey f = k := hk.symm
      cases h : List.lookup k m with
      | none => simp [List.filter_cons, List.any_cons, hfk, h]
      | some g => simp [List.filter_cons, hfk, h]
    · rw [if_neg hk]
      have hfk : ¬ stateKey f = k := fun hc => hk hc.symm
      cases h : List.lookup k m with
      | none => simp [List.filter_cons, List.any_cons, hfk, h]
      | some g => simp [List.filter_cons, hfk, h]

/-- Each group of the splitter is exactly the input filtered to its key, in
input order. -/
lemma splitMap_group (fs : List SplitFeat) (k : String) :
    (List.lookup k (splitMap fs)).getD [] = fs.filter (fun f => stateKey f = k) := by
  rw [splitMap, lookup_foldl_addFeat fs [] k]
  simp only [List.lookup_nil]
  by_cases h : fs.any (fun f => stateKey f = k)
  · simp [h]
  · have h3 : ∀ a ∈ fs, ¬ stateKey a = k := by simpa using h
    have h2 : fs.filter (fun f => stateKey f = k) = [] := by
      rw [List.filter_eq_nil_iff]
      intro a ha
      simpa using h3 a ha
    simp [h, h2]

lemma keys_addFeat (m : List (String × List SplitFeat)) (f : SplitFeat) :
    (addFeat m f).map Prod.fst =
      if m.any (fun e => e.1 = stateKey f) then m.map Prod.fst
      else m.map Prod.fst ++ [stateKey f] := by
  show ((if m.any (fun e => e.1 = stateKey f) then m
      else m ++ [(stateKey f, [])]).map
      (fun e => if e.1 = stateKey f then (e.1, e.2 ++ [f]) else e)).map Prod.fst = _
  have hfst : ∀ e : String × List SplitFeat,
      (if e.1 = stateKey f then (e.1, e.2 ++ [f]) else e).1 = e.1 := by
    intro e
    by_cases he : e.1 = stateKey f <;> simp [he]
  by_cases h : m.any (fun e => e.1 = stateKey f)
  · rw [if_pos h, if_pos h, List.map_map]
    exact List.map_congr_left (fun e _ => hfst e)
  · rw [if_neg h, if_neg h, List.map_map, List.map_append]
    congr 1
    · exact List.map_congr_left (fun e _ => hfst e)
    · simp

lemma keys_splitMap_nodup :
    ∀ (fs : List SplitFeat) (m : List (String × List SplitFeat)),
      (m.map Prod.fst).Nodup → ((fs.foldl addFeat m).map Prod.fst).Nodup
  | [], _, h => h
  | f :: fs, m, h => by
    rw [List.foldl_cons]
    apply keys_splitMap_nodup fs
    rw [keys_addFeat]
    by_cases hany : m.any (fun e => e.1 = stateKey f)
    · rwa [if_pos hany]
    · rw [if_neg hany]
      have hmem : stateKey f ∉ m.map Prod.fst := by
        intro hc
        obtain ⟨e, he, hek⟩ := List.mem_map.mp hc
        exact hany (List.any_eq_true.mpr ⟨e, he, by simp [hek]⟩)
      rw [List.nodup_append]
      refine ⟨h, List.nodup_singleton _, fun x hx hx' => ?_⟩
      rw [List.mem_singleton] at hx'
      exact hmem (hx' ▸ hx)

lemma lookup_some_mem_keys :
    ∀ (m : List (String × List SplitFeat)) (k : String) (v : List SplitFeat),
      List.lookup k m = some v → k ∈ m.map Prod.fst
  | [], _, _, h => by cases h
  | (k1, w) :: m, k, v, h => by
    by_cases h2 : k = k1
    · simp [h2]
    · rw [lookup_cons_ne h2] at h
      exact List.mem_cons_of_mem _ (lookup_some_mem_keys m k v h)

lemma flatMap_congr_mem {α β : Type} (l : List α) (f g : α → List β)
    (h : ∀ a ∈ l, f a = g a) : l.flatMap f = l.flatMap g := by
  induction l with
  | nil => rfl
  | cons a l ih =>
    rw [List.flatMap_cons, List.flatMap_cons, h a (List.mem_cons_self a l),
      ih (fun b hb => h b (List.mem_cons_of_mem a hb))]

/-- Reassembling the per-key filters over any duplicate-free, covering key list
is a permutation of the input. -/
lemma flatMap_filter_perm :
    ∀ (ks : List String) (fs : List SplitFeat), ks.Nodup →
      (∀ f ∈ fs, stateKey f ∈ ks) →
      List.Perm (ks.flatMap (fun k => fs.filter (fun f => stateKey f = k))) fs
  | [], fs, _, hmem => by
    cases fs with
    | nil => simp
    | cons f fs' =>
      exact absurd (hmem f (List.mem_cons_self f fs')) (List.not_mem_nil (stateKey f))
  | k :: ks, fs, hnd, hmem => by
    rw [List.flatMap_cons]
    obtain ⟨hk, hnd'⟩ := List.nodup_cons.mp hnd
    have hcongr : ks.flatMap (fun k' => fs.filter (fun f => stateKey f = k')) =
        ks.flatMap (fun k' =>
          (fs.filter (fun f => !(stateKey f = k))).filter
            (fun f => stateKey f = k')) := by
      apply flatMap_congr_mem
      intro k' hk'
      have hne : k' ≠ k := fun hc => hk (hc ▸ hk')
      rw [List.filter_filter]
      congr 1
      funext f
      by_cases hf : stateKey f = k'
      · have hnk : ¬ stateKey f = k := fun hc => hne (by rw [← hf, hc])
        simp [hf, hnk, hne]
      · simp [hf]
    rw [hcongr]
    have hmem' : ∀ f ∈ fs.filter (fun f => !(stateKey f = k)), stateKey f ∈ ks := by
      intro f hf
      obtain ⟨hfs, hnot⟩ := List.mem_filter.mp hf
      rcases List.mem_cons.mp (hmem f hfs) with hc | hc
      · exact absurd hc (by simpa using hnot)
      · exact hc
    have hperm := flatMap_filter_perm ks (fs.filter (fun f => !(stateKey f = k)))
      hnd' hmem'
    exact (List.Perm.append_left _ hperm).trans (List.filter_append_perm _ fs)

/-- Every input feature's key appears among the sorted output keys. -/
lemma key_mem_splitCodes (fs : List SplitFeat) (f : SplitFeat) (hf : f ∈ fs) :
    stateKey f ∈ splitCodes fs := by
  have hany : fs.any (fun x => stateKey x = stateKey f) = true :=
    List.any_eq_true.mpr ⟨f, hf, by simp⟩
  have hlook : List.lookup (stateKey f) (splitMap fs) =
      some (fs.filter (fun x => stateKey x = stateKey f)) := by
    rw [splitMap, lookup_foldl_addFeat fs [] (stateKey f)]
    simp [hany]
  have hkeys := lookup_some_mem_keys _ _ _ hlook
  exact (List.perm_insertionSort (fun a b : String => a ≤ b) _).mem_iff.mpr hkeys

/-- Claim C4: splitting a feature collection by the 2-character identifier
prefix and reassembling all partitions in sorted key order yields the original
multiset of features (a permutation), and each partition is exactly the input
filtered to its key — original relative order preserved within every
partition. -/
theorem c4_split_roundtrip :
    ∀ fs : List SplitFeat,
      List.Perm (reassemble fs) fs ∧
      ∀ k : String, (List.lookup k (splitMap fs)).getD [] =
        fs.filter (fun f => stateKey f = k) := by
  intro fs
  refine ⟨?_, fun k => splitMap_group fs k⟩
  show List.Perm (((splitCodes fs).map
    (fun c => (c, (List.lookup c (splitMap fs)).getD []))).flatMap Prod.snd) fs
  rw [List.flatMap_map]
  have h1 : (splitCodes fs).flatMap
      (fun c => (List.lookup c (splitMap fs)).getD []) =
      (splitCodes fs).flatMap (fun c => fs.filter (fun f => stateKey f = c)) :=
    flatMap_congr_mem _ _ _ (fun c _ => splitMap_group fs c)
  rw [show (fun c => Prod.snd ((c, (List.lookup c (splitMap fs)).getD []) :
      String × List SplitFeat)) = fun c => (List.lookup c (splitMap fs)).getD []
    from rfl, h1]
  apply flatMap_filter_perm
  · exact (List.perm_insertionSort (fun a b : String => a ≤ b) _).nodup_iff.mpr
      (keys_splitMap_nodup fs [] (by simp))
  · exact fun f hf => key_mem_splitCodes fs f hf

/-- A feature carrying neither `ags` nor `id`. -/
def noIdFeat : SplitFeat := { props := none }

/-- Claim C10: the splitter assigns every input feature to exactly one
partition; a feature missing both `ags` and `id` is keyed by the empty string
and written to the corresponding output file, so no feature is dropped.
Conjuncts: the empty-key evaluations (for absent properties and for present
but absent fields); every input feature lands in the partition of its own key,
and that partition is among the written files; a feature never appears in a
partition with a different key; and the concrete one-feature collection is
written as the single file keyed by the empty string. -/
theorem c10_empty_key :
    stateKey noIdFeat = "" ∧
    stateKey { props := some { ags := none, id := none } } = "" ∧
    (∀ (fs : List SplitFeat) (f : SplitFeat), f ∈ fs →
      f ∈ (List.lookup (stateKey f) (splitMap fs)).getD [] ∧
      (stateKey f, (List.lookup (stateKey f) (splitMap fs)).getD []) ∈
        splitFiles fs) ∧
    (∀ (fs : List SplitFeat) (k : String) (g : List SplitFeat) (f : SplitFeat),
      (k, g) ∈ splitFiles fs → f ∈ g → stateKey f = k) ∧
    splitFiles [noIdFeat] = [("", [noIdFeat])] := by
  refine ⟨rfl, rfl, ?_, ?_, by decide⟩
  · intro fs f hf
    constructor
    · rw [splitMap_group]
      exact List.mem_filter.mpr ⟨hf, by simp⟩
    · exact List.mem_map.mpr ⟨stateKey f, key_mem_splitCodes fs f hf, rfl⟩
  · intro fs k g f hkg hfg
    obtain ⟨c, _, hc⟩ := List.mem_map.mp hkg
    obtain ⟨hck, hcg⟩ := Prod.mk.injEq .. ▸ hc
    rw [← hck]
    rw [← hcg, splitMap_group] at hfg
    simpa using (List.mem_filter.mp hfg).2

/-- Witness for C10: the featureless-key feature is placed in the empty-key
partition of its own singleton collection, and that partition is written. -/
theorem c10_empty_key_witness :
    noIdFeat ∈ (List.lookup (stateKey noIdFeat) (splitMap [noIdFeat])).getD [] ∧
    (stateKey noIdFeat,
      (List.lookup (stateKey noIdFeat) (splitMap [noIdFeat])).getD []) ∈
      splitFiles [noIdFeat] :=
  c10_empty_key.2.2.1 [noIdFeat] noIdFeat (List.mem_singleton.mpr rfl)

end Deutschlandkarte
